import Mathlib

/-!
Verification of the PCK evaluation script `eval.py` of the
tf-keras-stacked-hourglass-keypoint-detection repository.

The script computes the Percentage of Correct Keypoints (PCK) metric for a
stacked-hourglass pose model over a validation dataset.  We embed the parts
of the script that carry its logic:

* `check_pred_keypoints` / `keypoint_accuracy` — the per-keypoint PCK test
  (eval.py lines 25-50).  Keypoints are embedded as rational `(x, y)` pairs
  (the source slices rows with `[0:2]`, dropping any confidence column).
  The source compares `np.linalg.norm(gt - pred) / normalize < threshold`
  on floats; over the exact rationals we embed the equivalent comparison on
  squared distances, and `dist_lt_iff_sqrt` proves that, for a positive
  `normalize`, the embedded test agrees with the real square-root
  comparison of the source.
* the accumulator loop of `eval_PCK` (lines 304-386) — per-class succeed /
  fail counter dictionaries, embedded as lists of counters positionally
  aligned with `class_names`.  Model inference plus heatmap post-processing
  (which live in external ML runtimes) are abstracted as the per-sample
  predicted keypoints delivered by the dataset stream `gen`.  The dataset
  generator is infinite (a Keras-style generator); the `for` loop exits via
  the `count > size` break, which we embed with an explicit fuel argument
  and prove fuel-independence for any fuel ≥ dataset size.
* Python exceptions (`assert`, `raise`, `ZeroDivisionError` from
  `succeed * 1.0 / (succeed + fail)`, `IndexError` from `result_list[i]`)
  are embedded as `Except String`.  An exception aborts `eval_PCK` and its
  local counter state is discarded, so all-or-nothing `Except` steps are
  observationally faithful even though the Python loop mutates dicts
  in place before raising.
* `load_eval_model` (lines 409-436) and the model-format dispatch of
  `eval_PCK` (lines 322-335); paths are compared by suffix on their
  character lists, mirroring `str.endswith`.
* the four backend predict functions (lines 203-301), over tensors embedded
  as index functions `Nat → ... → ℚ`.
* the command-line surface of `main` (lines 439-503).
-/

deriving instance DecidableEq for Except

/-- Squared Euclidean distance between the `(x, y)` parts of a predicted and
a ground-truth keypoint: the square of `np.linalg.norm(gt_keypoint[0:2] -
pred_keypoint[0:2])` (eval.py line 29). -/
def kp_dist_sq (pred_keypoint gt_keypoint : ℚ × ℚ) : ℚ :=
  (gt_keypoint.1 - pred_keypoint.1) ^ 2 + (gt_keypoint.2 - pred_keypoint.2) ^ 2

/-- The comparison `np.linalg.norm(gt - pred) / normalize < threshold`
(eval.py lines 29-30), expressed on squared distances so that the
definition is executable over `ℚ`: `dist_lt_iff_sqrt` shows it coincides
with the square-root comparison of the source for `0 < normalize`. -/
def dist_lt (pred_keypoint gt_keypoint : ℚ × ℚ) (threshold normalize : ℚ) : Bool :=
  decide (0 < threshold * normalize ∧
    kp_dist_sq pred_keypoint gt_keypoint < (threshold * normalize) ^ 2)

/-- eval.py lines 25-38: returns `1` for a succeeded prediction, `0` for a
failed one, `-1` when the ground-truth keypoint is invalid (a coordinate
not strictly greater than 1). -/
def check_pred_keypoints (pred_keypoint gt_keypoint : ℚ × ℚ)
    (threshold normalize : ℚ) : Int :=
  if 1 < gt_keypoint.1 ∧ 1 < gt_keypoint.2 then
    if dist_lt pred_keypoint gt_keypoint threshold normalize then 1 else 0
  else
    -1

/-- For a positive divisor, the embedded squared comparison agrees with the
real square-root comparison performed by the source. -/
lemma dist_lt_iff_sqrt (pred_keypoint gt_keypoint : ℚ × ℚ) (threshold normalize : ℚ)
    (hn : 0 < normalize) :
    dist_lt pred_keypoint gt_keypoint threshold normalize = true ↔
      Real.sqrt ((kp_dist_sq pred_keypoint gt_keypoint : ℚ) : ℝ) / (normalize : ℝ) <
        (threshold : ℝ) := by
  have hnR : (0 : ℝ) < (normalize : ℝ) := by exact_mod_cast hn
  rw [dist_lt, decide_eq_true_iff, div_lt_iff₀ hnR]
  constructor
  · rintro ⟨hpos, hlt⟩
    have hposR : (0 : ℝ) < (threshold : ℝ) * (normalize : ℝ) := by exact_mod_cast hpos
    refine (Real.sqrt_lt' hposR).mpr ?_
    exact_mod_cast hlt
  · intro h
    have hposR : (0 : ℝ) < (threshold : ℝ) * (normalize : ℝ) :=
      lt_of_le_of_lt (Real.sqrt_nonneg _) h
    have hltR := (Real.sqrt_lt' hposR).mp h
    refine ⟨by exact_mod_cast hposR, ?_⟩
    exact_mod_cast hltR

/-- C1: with a valid ground-truth keypoint (both coordinates strictly
greater than 1) and a positive normalize value, `check_pred_keypoints`
returns 1 exactly when the Euclidean distance between the predicted and
ground-truth `(x, y)` coordinates divided by `normalize` is strictly less
than `threshold`, and returns 0 otherwise. -/
theorem check_pred_keypoints_correct (pred_keypoint gt_keypoint : ℚ × ℚ)
    (threshold normalize : ℚ) (hn : 0 < normalize)
    (hvalid : 1 < gt_keypoint.1 ∧ 1 < gt_keypoint.2) :
    (check_pred_keypoints pred_keypoint gt_keypoint threshold normalize = 1 ↔
      Real.sqrt ((kp_dist_sq pred_keypoint gt_keypoint : ℚ) : ℝ) / (normalize : ℝ) <
        (threshold : ℝ))
    ∧ (check_pred_keypoints pred_keypoint gt_keypoint threshold normalize = 0 ↔
      ¬ Real.sqrt ((kp_dist_sq pred_keypoint gt_keypoint : ℚ) : ℝ) / (normalize : ℝ) <
        (threshold : ℝ)) := by
  have hiff := dist_lt_iff_sqrt pred_keypoint gt_keypoint threshold normalize hn
  rw [check_pred_keypoints, if_pos hvalid]
  cases hb : dist_lt pred_keypoint gt_keypoint threshold normalize with
  | false =>
    rw [hb] at hiff
    simp only [Bool.false_eq_true, false_iff] at hiff
    simp [hiff]
  | true =>
    rw [hb] at hiff
    simp only [true_iff] at hiff
    simp [hiff]

/-- C1 witness: a concrete succeeded prediction, distance 3 with
`normalize = 1` and `threshold = 4`. -/
theorem check_pred_keypoints_correct_witness :
    (check_pred_keypoints (2, 2) (5, 2) 4 1 = 1 ↔
      Real.sqrt ((kp_dist_sq (2, 2) (5, 2) : ℚ) : ℝ) / ((1 : ℚ) : ℝ) < ((4 : ℚ) : ℝ))
    ∧ (check_pred_keypoints (2, 2) (5, 2) 4 1 = 0 ↔
      ¬ Real.sqrt ((kp_dist_sq (2, 2) (5, 2) : ℚ) : ℝ) / ((1 : ℚ) : ℝ) < ((4 : ℚ) : ℝ)) :=
  check_pred_keypoints_correct (2, 2) (5, 2) 4 1 (by norm_num) (by norm_num)

/-- The possible results of `check_pred_keypoints` are `-1`, `0` and `1`. -/
lemma check_pred_keypoints_mem (pred_keypoint gt_keypoint : ℚ × ℚ)
    (threshold normalize : ℚ) :
    check_pred_keypoints pred_keypoint gt_keypoint threshold normalize = -1 ∨
    check_pred_keypoints pred_keypoint gt_keypoint threshold normalize = 0 ∨
    check_pred_keypoints pred_keypoint gt_keypoint threshold normalize = 1 := by
  rw [check_pred_keypoints]
  split
  · split
    · right; right; rfl
    · right; left; rfl
  · left; rfl

/-- `check_pred_keypoints` returns `-1` exactly on an invalid ground-truth
keypoint. -/
lemma check_pred_keypoints_eq_neg_one (pred_keypoint gt_keypoint : ℚ × ℚ)
    (threshold normalize : ℚ) :
    (check_pred_keypoints pred_keypoint gt_keypoint threshold normalize = -1 ↔
      ¬ (1 < gt_keypoint.1 ∧ 1 < gt_keypoint.2)) := by
  rw [check_pred_keypoints]
  split
  · split <;> simp_all
  · simp_all

/-- eval.py lines 41-50: asserts that the predicted and ground-truth
keypoint lists have the same number of rows (`AssertionError` embedded as
`Except.error`), then returns the list of per-keypoint
`check_pred_keypoints` results. -/
def keypoint_accuracy (pred_keypoints gt_keypoints : List (ℚ × ℚ))
    (threshold normalize : ℚ) : Except String (List Int) :=
  if pred_keypoints.length = gt_keypoints.length then
    .ok (List.zipWith (fun p g => check_pred_keypoints p g threshold normalize)
      pred_keypoints gt_keypoints)
  else
    .error "keypoint number mismatch"

/-- Every element of a `zipWith` is an image of `f`. -/
lemma mem_zipWith_imp {α β γ : Type} (f : α → β → γ) :
    ∀ (as : List α) (bs : List β) (r : γ), r ∈ List.zipWith f as bs →
      ∃ a b, r = f a b := by
  intro as
  induction as with
  | nil => intro bs r hr; simp at hr
  | cons a as ih =>
    intro bs r hr
    cases bs with
    | nil => simp at hr
    | cons b bs =>
      rcases List.mem_cons.mp hr with h | h
      · exact ⟨a, b, h⟩
      · exact ih bs r h

/-- Positional access through a `zipWith`, with any default values. -/
lemma zipWith_getD {α β γ : Type} (f : α → β → γ) :
    ∀ (as : List α) (bs : List β) (i : Nat), i < as.length → i < bs.length →
      ∀ (da : α) (db : β) (dc : γ),
        (List.zipWith f as bs).getD i dc = f (as.getD i da) (bs.getD i db) := by
  intro as
  induction as with
  | nil => intro bs i hi; simp at hi
  | cons a as ih =>
    intro bs i hi hj da db dc
    cases bs with
    | nil => simp at hj
    | cons b bs =>
      cases i with
      | zero => simp [List.getD]
      | succ i =>
        simp only [List.zipWith_cons_cons, List.getD_cons_succ]
        exact ih bs i (by simpa using hi) (by simpa using hj) da db dc

/-- C10: under the precondition of the assertion (equal keypoint counts),
`keypoint_accuracy` returns a list whose length equals the number of
ground-truth keypoints, every element of which is -1, 0 or 1, and whose
i-th element is `check_pred_keypoints` applied to the i-th predicted and
ground-truth keypoints. -/
theorem keypoint_accuracy_contract (pred_keypoints gt_keypoints : List (ℚ × ℚ))
    (threshold normalize : ℚ)
    (h : pred_keypoints.length = gt_keypoints.length) :
    ∃ result_list,
      keypoint_accuracy pred_keypoints gt_keypoints threshold normalize = .ok result_list ∧
      result_list.length = gt_keypoints.length ∧
      (∀ r ∈ result_list, r = -1 ∨ r = 0 ∨ r = 1) ∧
      (∀ i : Nat, i < gt_keypoints.length →
        result_list.getD i 2 =
          check_pred_keypoints (pred_keypoints.getD i (0, 0))
            (gt_keypoints.getD i (0, 0)) threshold normalize) := by
  refine ⟨_, by rw [keypoint_accuracy, if_pos h], ?_, ?_, ?_⟩
  · rw [List.length_zipWith, h, Nat.min_self]
  · intro r hr
    rcases mem_zipWith_imp _ pred_keypoints gt_keypoints r hr with ⟨a, b, heq⟩
    subst heq
    exact check_pred_keypoints_mem _ _ _ _
  · intro i hi
    exact zipWith_getD _ pred_keypoints gt_keypoints i (h ▸ hi) hi (0, 0) (0, 0) 2

/-- C10 witness: two keypoints, one valid and one invalid ground truth. -/
theorem keypoint_accuracy_contract_witness :
    ∃ result_list,
      keypoint_accuracy [(2, 2), (3, 3)] [(5, 2), (0, 0)] 4 1 = .ok result_list ∧
      result_list.length = ([(5, 2), (0, 0)] : List (ℚ × ℚ)).length ∧
      (∀ r ∈ result_list, r = -1 ∨ r = 0 ∨ r = 1) ∧
      (∀ i : Nat, i < ([(5, 2), (0, 0)] : List (ℚ × ℚ)).length →
        result_list.getD i 2 =
          check_pred_keypoints (([(2, 2), (3, 3)] : List (ℚ × ℚ)).getD i (0, 0))
            (([(5, 2), (0, 0)] : List (ℚ × ℚ)).getD i (0, 0)) 4 1) :=
  keypoint_accuracy_contract [(2, 2), (3, 3)] [(5, 2), (0, 0)] 4 1 (by decide)

/-- One sample drawn from the evaluation dataset generator (eval.py line
316).  Model inference and heatmap post-processing are external runtimes;
the predicted keypoints they produce for the sample are part of the sample
datum, and the ground-truth keypoints are the transformed points
`metainfo['tpts']` (line 345). -/
structure EvalSample where
  pred_keypoints : List (ℚ × ℚ)
  gt_keypoints : List (ℚ × ℚ)

/-- eval.py lines 350-354: one pass of `for i, class_name in
enumerate(class_names)` over a sample result list, incrementing the
succeed counter of class `i` when `result_list[i] == 1` and the fail
counter when `result_list[i] == 0`.  Reading `result_list[i]` for
`i ≥ len(result_list)` raises `IndexError`; the partially updated local
dicts of the aborted `eval_PCK` call are never observed, so the embedded
update is all-or-nothing. -/
def update_counters (class_names : List String) (result_list : List Int)
    (succeed_counts fail_counts : List Nat) : Except String (List Nat × List Nat) :=
  if class_names.length ≤ result_list.length then
    .ok (List.zipWith (fun s r => if r = 1 then s + 1 else s) succeed_counts result_list,
         List.zipWith (fun f r => if r = 0 then f + 1 else f) fail_counts result_list)
  else
    .error "list index out of range"

/-- The body of the evaluation loop for one sample (eval.py lines 348-354):
compute the per-keypoint result list, then update the counters. -/
def eval_step (class_names : List String) (threshold normalize : ℚ)
    (sample : EvalSample) (state : List Nat × List Nat) :
    Except String (List Nat × List Nat) :=
  match keypoint_accuracy sample.pred_keypoints sample.gt_keypoints threshold normalize with
  | .error e => .error e
  | .ok result_list => update_counters class_names result_list state.1 state.2

/-- eval.py lines 313-364: the evaluation loop.  The dataset generator is
infinite, embedded as the stream `gen`; `batch_size = 1`, shuffling is
disabled, and `count` increases by the batch size each iteration, with
`if count > eval_dataset.get_dataset_size(): break` exiting before the
sample is processed.  The loop is embedded with a fuel argument;
`eval_loop_eq_run_from` shows the result does not depend on the fuel once
it covers the dataset size. -/
def eval_loop (class_names : List String) (threshold normalize : ℚ)
    (gen : Nat → EvalSample) (dataset_size : Nat) :
    Nat → Nat → List Nat × List Nat → Except String (List Nat × List Nat)
  | 0, _, state => .ok state
  | fuel + 1, count, state =>
    if dataset_size < count + 1 then .ok state
    else
      match eval_step class_names threshold normalize (gen count) state with
      | .error e => .error e
      | .ok state2 =>
        eval_loop class_names threshold normalize gen dataset_size fuel (count + 1) state2

/-- The evaluation loop as a fold of `eval_step` over the samples with
indices `first, first + 1, ..., first + m - 1`. -/
def run_from (class_names : List String) (threshold normalize : ℚ)
    (gen : Nat → EvalSample) (first m : Nat) (state : List Nat × List Nat) :
    Except String (List Nat × List Nat) :=
  match m with
  | 0 => .ok state
  | m + 1 =>
    match eval_step class_names threshold normalize (gen first) state with
    | .error e => .error e
    | .ok state2 => run_from class_names threshold normalize gen (first + 1) m state2

/-- eval.py lines 366-373 (per-class part): `accuracy_dict[class_name] =
succeed * 1.0 / (succeed + fail)` for every class, in class order.  The
float division raises `ZeroDivisionError` when `succeed + fail = 0`,
embedded as `Except.error`. -/
def compute_accuracies : List String → List Nat → List Nat →
    Except String (List (String × ℚ))
  | [], _, _ => .ok []
  | class_name :: rest_names, s :: rest_s, f :: rest_f =>
    if s + f = 0 then .error "float division by zero"
    else
      match compute_accuracies rest_names rest_s rest_f with
      | .error e => .error e
      | .ok rest => .ok ((class_name, (s : ℚ) / ((s : ℚ) + (f : ℚ))) :: rest)
  | _, _, _ => .error "key error"

/-- eval.py lines 304-386 (with inference abstracted into the sample
stream): run the evaluation loop starting from all-zero per-class succeed
and fail counters, compute the per-class accuracies, and return the total
accuracy `total_succeed * 1.0 / (total_fail + total_succeed)` together
with the per-class accuracy dictionary.  (The total division is numpy
float-scalar arithmetic, which does not raise on a zero denominator; with
at least one class a zero total denominator forces a per-class zero
denominator, which raises first, so the `ℚ` division is only reached with
a nonzero denominator whenever class_names is nonempty.) -/
def eval_PCK (class_names : List String) (gen : Nat → EvalSample)
    (dataset_size : Nat) (score_threshold normalize : ℚ) :
    Except String (ℚ × List (String × ℚ)) :=
  let n := class_names.length
  match eval_loop class_names score_threshold normalize gen dataset_size
      (dataset_size + 1) 0 (List.replicate n 0, List.replicate n 0) with
  | .error e => .error e
  | .ok (succeed_counts, fail_counts) =>
    match compute_accuracies class_names succeed_counts fail_counts with
    | .error e => .error e
    | .ok accuracy_list =>
      let total_succeed := succeed_counts.sum
      let total_fail := fail_counts.sum
      .ok ((total_succeed : ℚ) / ((total_fail : ℚ) + (total_succeed : ℚ)), accuracy_list)

/-- Whether the ground-truth keypoint of class `i` in a sample is valid
(both coordinates strictly greater than 1, eval.py line 27). -/
def gt_valid (sample : EvalSample) (i : Nat) : Bool :=
  decide (1 < (sample.gt_keypoints.getD i (0, 0)).1 ∧
          1 < (sample.gt_keypoints.getD i (0, 0)).2)

/-- Number of samples among the first `m` whose ground-truth keypoint for
class `i` is valid. -/
def valid_count (gen : Nat → EvalSample) (m i : Nat) : Nat :=
  ((List.range m).filter (fun k => gt_valid (gen k) i)).length

/-- Number of valid ground-truth keypoints for class `i` among the samples
`first, ..., first + m - 1`, in recursion-friendly form. -/
def valid_count_from (gen : Nat → EvalSample) (first m i : Nat) : Nat :=
  match m with
  | 0 => 0
  | m + 1 => (if gt_valid (gen first) i then 1 else 0) + valid_count_from gen (first + 1) m i

lemma valid_count_from_succ (gen : Nat → EvalSample) :
    ∀ (m first i : Nat),
      valid_count_from gen first (m + 1) i =
        valid_count_from gen first m i + (if gt_valid (gen (first + m)) i then 1 else 0) := by
  intro m
  induction m with
  | zero => intro first i; simp [valid_count_from]
  | succ m ih =>
    intro first i
    rw [valid_count_from, ih (first + 1) i]
    rw [valid_count_from]
    have h1 : first + 1 + m = first + (m + 1) := by omega
    rw [h1]
    omega


lemma valid_count_eq_from (gen : Nat → EvalSample) :
    ∀ (m i : Nat), valid_count gen m i = valid_count_from gen 0 m i := by
  intro m
  induction m with
  | zero => intro i; simp [valid_count, valid_count_from]
  | succ m ih =>
    intro i
    rw [valid_count, List.range_succ, List.filter_append, List.length_append]
    rw [valid_count_from_succ, ← valid_count, ih i]
    simp [List.filter]
    cases hv : gt_valid (gen (0 + m)) i <;> simp [Nat.zero_add] at hv ⊢ <;> simp [hv]

/-- With fuel covering the remaining samples, the fueled loop computes the
fold of `eval_step` over the samples `count, ..., dataset_size - 1`; in
particular the result does not depend on the fuel (the loop always exits
through the `count > size` break). -/
lemma eval_loop_eq_run_from (class_names : List String) (threshold normalize : ℚ)
    (gen : Nat → EvalSample) (dataset_size : Nat) :
    ∀ (fuel count : Nat) (state : List Nat × List Nat), dataset_size ≤ count + fuel →
      eval_loop class_names threshold normalize gen dataset_size fuel count state =
        run_from class_names threshold normalize gen count (dataset_size - count) state := by
  intro fuel
  induction fuel with
  | zero =>
    intro count state h
    have hz : dataset_size - count = 0 := by omega
    rw [eval_loop, hz, run_from]
  | succ fuel ih =>
    intro count state h
    rw [eval_loop]
    by_cases hbreak : dataset_size < count + 1
    · have hz : dataset_size - count = 0 := by omega
      rw [if_pos hbreak, hz, run_from]
    · have hs : dataset_size - count = (dataset_size - (count + 1)) + 1 := by omega
      rw [if_neg hbreak, hs, run_from]
      cases hstep : eval_step class_names threshold normalize (gen count) state with
      | error e => rfl
      | ok state2 => exact ih (count + 1) state2 (by omega)

/-- Characterization of a successful `eval_step`: each class's succeed
counter gains 1 exactly when the class's `check_pred_keypoints` result is
1, and its fail counter gains 1 exactly when the result is 0. -/
lemma eval_step_ok (class_names : List String) (threshold normalize : ℚ)
    (sample : EvalSample) (s f s2 f2 : List Nat)
    (hs : s.length = class_names.length) (hf : f.length = class_names.length)
    (hstep : eval_step class_names threshold normalize sample (s, f) = .ok (s2, f2)) :
    s2.length = class_names.length ∧ f2.length = class_names.length ∧
    ∀ i, i < class_names.length →
      s2.getD i 0 = s.getD i 0 +
        (if check_pred_keypoints (sample.pred_keypoints.getD i (0, 0))
            (sample.gt_keypoints.getD i (0, 0)) threshold normalize = 1 then 1 else 0) ∧
      f2.getD i 0 = f.getD i 0 +
        (if check_pred_keypoints (sample.pred_keypoints.getD i (0, 0))
            (sample.gt_keypoints.getD i (0, 0)) threshold normalize = 0 then 1 else 0) := by
  rw [eval_step] at hstep
  cases hka : keypoint_accuracy sample.pred_keypoints sample.gt_keypoints threshold normalize with
  | error e => rw [hka] at hstep; exact absurd hstep (by simp)
  | ok result_list =>
    rw [hka] at hstep
    rw [keypoint_accuracy] at hka
    by_cases hpg : sample.pred_keypoints.length = sample.gt_keypoints.length
    · rw [if_pos hpg] at hka
      have hrl : List.zipWith
          (fun p g => check_pred_keypoints p g threshold normalize)
          sample.pred_keypoints sample.gt_keypoints = result_list := by
        exact Except.ok.inj hka
      simp only [update_counters] at hstep
      by_cases hle : class_names.length ≤ result_list.length
      · rw [if_pos hle] at hstep
        have hpair := Except.ok.inj hstep
        have hs2 : List.zipWith (fun s r => if r = 1 then s + 1 else s) s result_list = s2 :=
          congrArg Prod.fst hpair
        have hf2 : List.zipWith (fun f r => if r = 0 then f + 1 else f) f result_list = f2 :=
          congrArg Prod.snd hpair
        have hrl_len : result_list.length =
            min sample.pred_keypoints.length sample.gt_keypoints.length := by
          rw [← hrl, List.length_zipWith]
        refine ⟨?_, ?_, ?_⟩
        · rw [← hs2, List.length_zipWith, hs]
          omega
        · rw [← hf2, List.length_zipWith, hf]
          omega
        · intro i hi
          have hi_s : i < s.length := by omega
          have hi_f : i < f.length := by omega
          have hi_rl : i < result_list.length := by omega
          have hi_p : i < sample.pred_keypoints.length := by omega
          have hi_g : i < sample.gt_keypoints.length := by omega
          have hval : result_list.getD i 0 =
              check_pred_keypoints (sample.pred_keypoints.getD i (0, 0))
                (sample.gt_keypoints.getD i (0, 0)) threshold normalize := by
            rw [← hrl]
            exact zipWith_getD _ _ _ i hi_p hi_g (0, 0) (0, 0) 0
          constructor
          · rw [← hs2, zipWith_getD _ s result_list i hi_s hi_rl 0 0 0, hval]
            split <;> omega
          · rw [← hf2, zipWith_getD _ f result_list i hi_f hi_rl 0 0 0, hval]
            split <;> omega
      · rw [if_neg hle] at hstep
        exact absurd hstep (by simp)
    · rw [if_neg hpg] at hka
      exact absurd hka (by simp)

/-- Running the loop body over samples `first, ..., first + m - 1`
preserves the counter lengths and adds, to each class's succeed-plus-fail
total, exactly the number of valid ground-truth keypoints of that class
among those samples. -/
lemma run_from_counts (class_names : List String) (threshold normalize : ℚ)
    (gen : Nat → EvalSample) :
    ∀ (m first : Nat) (s f s2 f2 : List Nat),
      s.length = class_names.length → f.length = class_names.length →
      run_from class_names threshold normalize gen first m (s, f) = .ok (s2, f2) →
      s2.length = class_names.length ∧ f2.length = class_names.length ∧
      ∀ i, i < class_names.length →
        s2.getD i 0 + f2.getD i 0 =
          s.getD i 0 + f.getD i 0 + valid_count_from gen first m i := by
  intro m
  induction m with
  | zero =>
    intro first s f s2 f2 hs hf hrun
    rw [run_from] at hrun
    have hpair := Except.ok.inj hrun
    have hs2 : s = s2 := congrArg Prod.fst hpair
    have hf2 : f = f2 := congrArg Prod.snd hpair
    subst hs2; subst hf2
    exact ⟨hs, hf, fun i _ => by rw [valid_count_from]; omega⟩
  | succ m ih =>
    intro first s f s2 f2 hs hf hrun
    rw [run_from] at hrun
    cases hstep : eval_step class_names threshold normalize (gen first) (s, f) with
    | error e => rw [hstep] at hrun; exact absurd hrun (by simp)
    | ok state2 =>
      rw [hstep] at hrun
      obtain ⟨sm, fm⟩ := state2
      obtain ⟨hsm_len, hfm_len, hstep_eq⟩ :=
        eval_step_ok class_names threshold normalize (gen first) s f sm fm hs hf hstep
      obtain ⟨hlen2, hlen3, hsum⟩ := ih (first + 1) sm fm s2 f2 hsm_len hfm_len hrun
      refine ⟨hlen2, hlen3, fun i hi => ?_⟩
      obtain ⟨hsm_eq, hfm_eq⟩ := hstep_eq i hi
      have hvalid_step : sm.getD i 0 + fm.getD i 0 =
          s.getD i 0 + f.getD i 0 + (if gt_valid (gen first) i then 1 else 0) := by
        rw [hsm_eq, hfm_eq]
        rcases check_pred_keypoints_mem ((gen first).pred_keypoints.getD i (0, 0))
            ((gen first).gt_keypoints.getD i (0, 0)) threshold normalize with hres | hres | hres
        · have hinvalid := (check_pred_keypoints_eq_neg_one _ _ _ _).mp hres
          have : gt_valid (gen first) i = false := by
            rw [gt_valid, decide_eq_false_iff_not]
            exact hinvalid
          rw [hres, this]
          norm_num
        · have hvalid : ¬ check_pred_keypoints ((gen first).pred_keypoints.getD i (0, 0))
              ((gen first).gt_keypoints.getD i (0, 0)) threshold normalize = -1 := by
            rw [hres]; decide
          have : gt_valid (gen first) i = true := by
            rw [gt_valid, decide_eq_true_iff]
            by_contra hc
            exact hvalid ((check_pred_keypoints_eq_neg_one _ _ _ _).mpr hc)
          rw [hres, this]
          norm_num
          omega
        · have hvalid : ¬ check_pred_keypoints ((gen first).pred_keypoints.getD i (0, 0))
              ((gen first).gt_keypoints.getD i (0, 0)) threshold normalize = -1 := by
            rw [hres]; decide
          have : gt_valid (gen first) i = true := by
            rw [gt_valid, decide_eq_true_iff]
            by_contra hc
            exact hvalid ((check_pred_keypoints_eq_neg_one _ _ _ _).mpr hc)
          rw [hres, this]
          norm_num
          omega
      rw [hsum i hi, hvalid_step, valid_count_from]
      omega

lemma getD_replicate_zero (n i : Nat) : (List.replicate n (0 : Nat)).getD i 0 = 0 := by
  induction n generalizing i with
  | zero => simp [List.getD]
  | succ n ih =>
    cases i with
    | zero => simp [List.replicate_succ]
    | succ i => simp [List.replicate_succ, ih i]

/-- Characterization of a successful `update_counters`. -/
lemma update_counters_ok (class_names : List String) (result_list : List Int)
    (s f s2 f2 : List Nat)
    (hs : s.length = class_names.length) (hf : f.length = class_names.length)
    (hupd : update_counters class_names result_list s f = .ok (s2, f2)) :
    ∀ i, i < class_names.length →
      s2.getD i 0 = s.getD i 0 + (if result_list.getD i (-1) = 1 then 1 else 0) ∧
      f2.getD i 0 = f.getD i 0 + (if result_list.getD i (-1) = 0 then 1 else 0) := by
  simp only [update_counters] at hupd
  by_cases hle : class_names.length ≤ result_list.length
  · rw [if_pos hle] at hupd
    have hpair := Except.ok.inj hupd
    have hs2 : List.zipWith (fun s r => if r = 1 then s + 1 else s) s result_list = s2 :=
      congrArg Prod.fst hpair
    have hf2 : List.zipWith (fun f r => if r = 0 then f + 1 else f) f result_list = f2 :=
      congrArg Prod.snd hpair
    intro i hi
    have hi_s : i < s.length := by omega
    have hi_f : i < f.length := by omega
    have hi_rl : i < result_list.length := by omega
    constructor
    · rw [← hs2, zipWith_getD _ s result_list i hi_s hi_rl 0 (-1) 0]
      split <;> omega
    · rw [← hf2, zipWith_getD _ f result_list i hi_f hi_rl 0 (-1) 0]
      split <;> omega
  · rw [if_neg hle] at hupd
    exact absurd hupd (by simp)

/-- C5: the accumulator state of `eval_PCK` consists of per-class succeed
and fail counters starting at 0; processing a sample increments a class's
succeed counter exactly when its keypoint result is 1 and its fail counter
exactly when the result is 0 (and neither for -1); hence at the end of the
loop every class's succeed plus fail count equals the number of valid
ground-truth keypoints of that class among the processed samples. -/
theorem eval_PCK_counter_invariant (class_names : List String) (threshold normalize : ℚ)
    (gen : Nat → EvalSample) (dataset_size : Nat) (succeed_counts fail_counts : List Nat)
    (hloop : eval_loop class_names threshold normalize gen dataset_size (dataset_size + 1) 0
        (List.replicate class_names.length 0, List.replicate class_names.length 0) =
      .ok (succeed_counts, fail_counts)) :
    (∀ (result_list : List Int) (s f s2 f2 : List Nat),
        s.length = class_names.length → f.length = class_names.length →
        update_counters class_names result_list s f = .ok (s2, f2) →
        ∀ i, i < class_names.length →
          s2.getD i 0 = s.getD i 0 + (if result_list.getD i (-1) = 1 then 1 else 0) ∧
          f2.getD i 0 = f.getD i 0 + (if result_list.getD i (-1) = 0 then 1 else 0)) ∧
    (∀ i, i < class_names.length →
        succeed_counts.getD i 0 + fail_counts.getD i 0 = valid_count gen dataset_size i) := by
  constructor
  · intro result_list s f s2 f2 hs hf hupd
    exact update_counters_ok class_names result_list s f s2 f2 hs hf hupd
  · rw [eval_loop_eq_run_from class_names threshold normalize gen dataset_size
      (dataset_size + 1) 0 _ (by omega), Nat.sub_zero] at hloop
    obtain ⟨-, -, hsum⟩ := run_from_counts class_names threshold normalize gen
      dataset_size 0 _ _ succeed_counts fail_counts
      (List.length_replicate _ _) (List.length_replicate _ _) hloop
    intro i hi
    rw [hsum i hi, getD_replicate_zero, valid_count_eq_from]
    omega

/-- C5 witness: one class, one sample with a valid ground-truth keypoint
and an exact prediction. -/
theorem eval_PCK_counter_invariant_witness :
    (∀ (result_list : List Int) (s f s2 f2 : List Nat),
        s.length = (["head"] : List String).length →
        f.length = (["head"] : List String).length →
        update_counters ["head"] result_list s f = .ok (s2, f2) →
        ∀ i, i < (["head"] : List String).length →
          s2.getD i 0 = s.getD i 0 + (if result_list.getD i (-1) = 1 then 1 else 0) ∧
          f2.getD i 0 = f.getD i 0 + (if result_list.getD i (-1) = 0 then 1 else 0)) ∧
    (∀ i, i < (["head"] : List String).length →
        ([1] : List Nat).getD i 0 + ([0] : List Nat).getD i 0 =
          valid_count (fun _ => ⟨[(3, 3)], [(3, 3)]⟩) 1 i) :=
  eval_PCK_counter_invariant ["head"] 4 1 (fun _ => ⟨[(3, 3)], [(3, 3)]⟩) 1 [1] [0]
    (by norm_num [eval_loop, eval_step, keypoint_accuracy, update_counters,
      check_pred_keypoints, dist_lt, kp_dist_sq])

/-- Two generators agreeing on the processed index range produce the same
run. -/
lemma run_from_congr (class_names : List String) (threshold normalize : ℚ)
    (gen gen2 : Nat → EvalSample) :
    ∀ (m first : Nat) (state : List Nat × List Nat),
      (∀ k, first ≤ k → k < first + m → gen2 k = gen k) →
      run_from class_names threshold normalize gen2 first m state =
        run_from class_names threshold normalize gen first m state := by
  intro m
  induction m with
  | zero => intro first state _; rfl
  | succ m ih =>
    intro first state hagree
    rw [run_from, run_from, hagree first (Nat.le_refl _) (by omega)]
    cases hstep : eval_step class_names threshold normalize (gen first) state with
    | error e => rfl
    | ok state2 => exact ih (first + 1) state2 (fun k hk1 hk2 => hagree k (by omega) (by omega))

/-- C6: the evaluation loop is strictly sequential: with any fuel covering
the dataset it processes exactly the samples `0, ..., dataset_size - 1` of
the generator stream, in order, terminating via the `count > size` break
(the result is independent of the fuel and of every sample past the
dataset size). -/
theorem eval_loop_sequential (class_names : List String) (threshold normalize : ℚ)
    (gen gen2 : Nat → EvalSample) (dataset_size fuel : Nat) (state : List Nat × List Nat)
    (hfuel : dataset_size ≤ fuel) (hagree : ∀ k, k < dataset_size → gen2 k = gen k) :
    eval_loop class_names threshold normalize gen dataset_size fuel 0 state =
      run_from class_names threshold normalize gen 0 dataset_size state ∧
    eval_loop class_names threshold normalize gen2 dataset_size fuel 0 state =
      run_from class_names threshold normalize gen 0 dataset_size state := by
  constructor
  · rw [eval_loop_eq_run_from class_names threshold normalize gen dataset_size fuel 0 state
      (by omega), Nat.sub_zero]
  · rw [eval_loop_eq_run_from class_names threshold normalize gen2 dataset_size fuel 0 state
      (by omega), Nat.sub_zero]
    exact run_from_congr class_names threshold normalize gen gen2 dataset_size 0 state
      (fun k _ hk2 => hagree k (by omega))

/-- C6 witness: a dataset of one sample; the second generator differs from
the first only past the dataset size. -/
theorem eval_loop_sequential_witness :
    eval_loop ["head"] 4 1 (fun _ => ⟨[(3, 3)], [(3, 3)]⟩) 1 5 0 ([0], [0]) =
      run_from ["head"] 4 1 (fun _ => ⟨[(3, 3)], [(3, 3)]⟩) 0 1 ([0], [0]) ∧
    eval_loop ["head"] 4 1
        (fun k => if k = 0 then ⟨[(3, 3)], [(3, 3)]⟩ else ⟨[], []⟩) 1 5 0 ([0], [0]) =
      run_from ["head"] 4 1 (fun _ => ⟨[(3, 3)], [(3, 3)]⟩) 0 1 ([0], [0]) :=
  eval_loop_sequential ["head"] 4 1 (fun _ => ⟨[(3, 3)], [(3, 3)]⟩)
    (fun k => if k = 0 then ⟨[(3, 3)], [(3, 3)]⟩ else ⟨[], []⟩) 1 5 ([0], [0])
    (by omega) (fun k hk => by simp [show k = 0 by omega])

lemma range_map_getD {α : Type} (n : Nat) (f : Nat → α) (i : Nat) (d : α) (h : i < n) :
    ((List.range n).map f).getD i d = f i := by
  rw [List.getD_eq_getElem ((List.range n).map f) d (by simpa using h)]
  simp

/-- On counter lists of matching length with no zero denominator,
`compute_accuracies` succeeds and reports, for every class, the class's
succeed count divided by its succeed-plus-fail count. -/
lemma compute_accuracies_ok_spec :
    ∀ (class_names : List String) (ss fs : List Nat),
      ss.length = class_names.length → fs.length = class_names.length →
      (∀ i, i < class_names.length → ss.getD i 0 + fs.getD i 0 ≠ 0) →
      compute_accuracies class_names ss fs =
        .ok ((List.range class_names.length).map (fun i =>
          (class_names.getD i "",
           (ss.getD i 0 : ℚ) / ((ss.getD i 0 : ℚ) + (fs.getD i 0 : ℚ))))) := by
  intro class_names
  induction class_names with
  | nil =>
    intro ss fs hss hfs _
    rw [List.length_eq_zero.mp hss, List.length_eq_zero.mp hfs]
    rfl
  | cons c cs ih =>
    intro ss fs hss hfs hnz
    cases ss with
    | nil => simp at hss
    | cons s sss =>
      cases fs with
      | nil => simp at hfs
      | cons f fss =>
        have hnz0 := hnz 0 (by simp)
        simp only [List.getD_cons_zero] at hnz0
        rw [compute_accuracies, if_neg hnz0]
        have ihs := ih sss fss (by simpa using hss) (by simpa using hfs)
          (fun i hi => by simpa using hnz (i + 1) (by simpa using hi))
        rw [ihs]
        simp only [List.length_cons, List.range_succ_eq_map, List.map_cons, List.map_map]
        rfl

/-- When some class has a zero succeed-plus-fail count,
`compute_accuracies` raises the float division by zero. -/
lemma compute_accuracies_zero :
    ∀ (class_names : List String) (ss fs : List Nat),
      ss.length = class_names.length → fs.length = class_names.length →
      (∃ i, i < class_names.length ∧ ss.getD i 0 + fs.getD i 0 = 0) →
      compute_accuracies class_names ss fs = .error "float division by zero" := by
  intro class_names
  induction class_names with
  | nil =>
    intro ss fs _ _ hex
    obtain ⟨i, hi, -⟩ := hex
    simp at hi
  | cons c cs ih =>
    intro ss fs hss hfs hex
    cases ss with
    | nil => simp at hss
    | cons s sss =>
      cases fs with
      | nil => simp at hfs
      | cons f fss =>
        by_cases h0 : s + f = 0
        · rw [compute_accuracies, if_pos h0]
        · rw [compute_accuracies, if_neg h0]
          obtain ⟨i, hi, hzero⟩ := hex
          cases i with
          | zero => simp only [List.getD_cons_zero] at hzero; omega
          | succ i =>
            have : compute_accuracies cs sss fss = .error "float division by zero" :=
              ih sss fss (by simpa using hss) (by simpa using hfs)
                ⟨i, by simpa using hi, by simpa using hzero⟩
            rw [this]

/-- A successful `compute_accuracies` implies every class had a nonzero
succeed-plus-fail count. -/
lemma compute_accuracies_ok_nonzero :
    ∀ (class_names : List String) (ss fs : List Nat) (result : List (String × ℚ)),
      compute_accuracies class_names ss fs = .ok result →
      ∀ i, i < class_names.length → ss.getD i 0 + fs.getD i 0 ≠ 0 := by
  intro class_names
  induction class_names with
  | nil => intro ss fs result _ i hi; simp at hi
  | cons c cs ih =>
    intro ss fs result hok i hi
    cases ss with
    | nil =>
      rw [compute_accuracies.eq_def] at hok
      simp at hok
    | cons s sss =>
      cases fs with
      | nil =>
        rw [compute_accuracies.eq_def] at hok
        simp at hok
      | cons f fss =>
        rw [compute_accuracies] at hok
        by_cases h0 : s + f = 0
        · rw [if_pos h0] at hok
          exact absurd hok (by simp)
        · rw [if_neg h0] at hok
          cases i with
          | zero => simpa using h0
          | succ i =>
            cases hrest : compute_accuracies cs sss fss with
            | error e => rw [hrest] at hok; exact absurd hok (by simp)
            | ok rest =>
              simp only [List.getD_cons_succ]
              exact ih sss fss rest hrest i (by simpa using hi)

/-- C2: at the end of `eval_PCK`, the per-class accuracy reported for each
class equals that class's succeed counter divided by the sum of its succeed
and fail counters, and the total accuracy returned equals the sum of all
succeed counters divided by the sum of all succeed and fail counters over
every class. -/
theorem eval_PCK_accuracy (class_names : List String) (threshold normalize : ℚ)
    (gen : Nat → EvalSample) (dataset_size : Nat) (succeed_counts fail_counts : List Nat)
    (hloop : eval_loop class_names threshold normalize gen dataset_size (dataset_size + 1) 0
        (List.replicate class_names.length 0, List.replicate class_names.length 0) =
      .ok (succeed_counts, fail_counts))
    (hnz : ∀ i, i < class_names.length →
      succeed_counts.getD i 0 + fail_counts.getD i 0 ≠ 0) :
    ∃ accuracy_list,
      eval_PCK class_names gen dataset_size threshold normalize =
        .ok (((succeed_counts.sum : ℚ)) /
            ((succeed_counts.sum : ℚ) + (fail_counts.sum : ℚ)), accuracy_list) ∧
      accuracy_list.length = class_names.length ∧
      ∀ i, i < class_names.length →
        accuracy_list.getD i ("", 0) =
          (class_names.getD i "",
           (succeed_counts.getD i 0 : ℚ) /
             ((succeed_counts.getD i 0 : ℚ) + (fail_counts.getD i 0 : ℚ))) := by
  have hrf := hloop
  rw [eval_loop_eq_run_from class_names threshold normalize gen dataset_size
    (dataset_size + 1) 0 _ (by omega), Nat.sub_zero] at hrf
  obtain ⟨hslen, hflen, -⟩ := run_from_counts class_names threshold normalize gen
    dataset_size 0 _ _ succeed_counts fail_counts
    (List.length_replicate _ _) (List.length_replicate _ _) hrf
  have hacc := compute_accuracies_ok_spec class_names succeed_counts fail_counts
    hslen hflen hnz
  refine ⟨(List.range class_names.length).map (fun i =>
      (class_names.getD i "",
       (succeed_counts.getD i 0 : ℚ) /
         ((succeed_counts.getD i 0 : ℚ) + (fail_counts.getD i 0 : ℚ)))), ?_, ?_, ?_⟩
  · simp only [eval_PCK, hloop, hacc]
    rw [add_comm ((fail_counts.sum : ℚ)) ((succeed_counts.sum : ℚ))]
  · rw [List.length_map, List.length_range]
  · intro i hi
    exact range_map_getD class_names.length _ i ("", 0) hi

/-- C2 witness: one class, one exact prediction; the reported accuracy is
1 / (1 + 0) and the total accuracy is 1. -/
theorem eval_PCK_accuracy_witness :
    ∃ accuracy_list,
      eval_PCK ["head"] (fun _ => ⟨[(3, 3)], [(3, 3)]⟩) 1 4 1 =
        .ok (((([1] : List Nat).sum : ℚ)) /
            ((([1] : List Nat).sum : ℚ) + (([0] : List Nat).sum : ℚ)), accuracy_list) ∧
      accuracy_list.length = (["head"] : List String).length ∧
      ∀ i, i < (["head"] : List String).length →
        accuracy_list.getD i ("", 0) =
          ((["head"] : List String).getD i "",
           (([1] : List Nat).getD i 0 : ℚ) /
             ((([1] : List Nat).getD i 0 : ℚ) + (([0] : List Nat).getD i 0 : ℚ))) :=
  eval_PCK_accuracy ["head"] 4 1 (fun _ => ⟨[(3, 3)], [(3, 3)]⟩) 1 [1] [0]
    (by norm_num [eval_loop, eval_step, keypoint_accuracy, update_counters,
      check_pred_keypoints, dist_lt, kp_dist_sq])
    (by
      intro i hi
      have h0 : i = 0 := by simpa using hi
      subst h0
      decide)

/-- C9: if some class ends the evaluation loop with zero succeed plus fail
counts, the per-class accuracy computation of `eval_PCK` divides by zero
and the evaluation fails with an (unhandled) error; a successful run
requires every class to have at least one valid ground-truth keypoint
among the evaluated samples. -/
theorem eval_PCK_div_by_zero (class_names : List String) (threshold normalize : ℚ)
    (gen : Nat → EvalSample) (dataset_size : Nat) (succeed_counts fail_counts : List Nat)
    (hloop : eval_loop class_names threshold normalize gen dataset_size (dataset_size + 1) 0
        (List.replicate class_names.length 0, List.replicate class_names.length 0) =
      .ok (succeed_counts, fail_counts)) :
    ((∃ i, i < class_names.length ∧
        succeed_counts.getD i 0 + fail_counts.getD i 0 = 0) →
      eval_PCK class_names gen dataset_size threshold normalize =
        .error "float division by zero") ∧
    (∀ result, eval_PCK class_names gen dataset_size threshold normalize = .ok result →
      ∀ i, i < class_names.length → 0 < valid_count gen dataset_size i) := by
  have hrf := hloop
  rw [eval_loop_eq_run_from class_names threshold normalize gen dataset_size
    (dataset_size + 1) 0 _ (by omega), Nat.sub_zero] at hrf
  obtain ⟨hslen, hflen, hsum⟩ := run_from_counts class_names threshold normalize gen
    dataset_size 0 _ _ succeed_counts fail_counts
    (List.length_replicate _ _) (List.length_replicate _ _) hrf
  constructor
  · intro hex
    simp only [eval_PCK, hloop,
      compute_accuracies_zero class_names succeed_counts fail_counts hslen hflen hex]
  · intro result hok i hi
    simp only [eval_PCK, hloop] at hok
    cases hacc : compute_accuracies class_names succeed_counts fail_counts with
    | error e => rw [hacc] at hok; exact absurd hok (by simp)
    | ok accuracy_list =>
      have hnz := compute_accuracies_ok_nonzero class_names succeed_counts fail_counts
        accuracy_list hacc i hi
      have hv := hsum i hi
      rw [getD_replicate_zero] at hv
      rw [valid_count_eq_from]
      omega

/-- C9 witness: a dataset whose only sample has an invalid ground-truth
keypoint for the single class, so the division by zero is reached. -/
theorem eval_PCK_div_by_zero_witness :
    ((∃ i, i < (["head"] : List String).length ∧
        ([0] : List Nat).getD i 0 + ([0] : List Nat).getD i 0 = 0) →
      eval_PCK ["head"] (fun _ => ⟨[(0, 0)], [(0, 0)]⟩) 1 (1 / 2) (64 / 10) =
        .error "float division by zero") ∧
    (∀ result,
      eval_PCK ["head"] (fun _ => ⟨[(0, 0)], [(0, 0)]⟩) 1 (1 / 2) (64 / 10) = .ok result →
      ∀ i, i < (["head"] : List String).length →
        0 < valid_count (fun _ => ⟨[(0, 0)], [(0, 0)]⟩) 1 i) :=
  eval_PCK_div_by_zero ["head"] (1 / 2) (64 / 10) (fun _ => ⟨[(0, 0)], [(0, 0)]⟩) 1 [0] [0]
    (by norm_num [eval_loop, eval_step, keypoint_accuracy, update_counters,
      check_pred_keypoints])

/-- C3 counterexample: an execution path raising an error that is neither
the invalid model file extension of `load_eval_model` nor the unsupported
tensor layout of `hourglass_predict_mnn`: with one class whose only
ground-truth keypoint is invalid, `eval_PCK` raises a ZeroDivisionError in
its accuracy computation. -/
theorem eval_PCK_error_beyond_claimed :
    eval_PCK ["head"] (fun _ => ⟨[(0, 0)], [(0, 0)]⟩) 1 (1 / 2) (64 / 10) =
      .error "float division by zero" := by
  norm_num [eval_PCK, eval_loop, eval_step, keypoint_accuracy, update_counters,
    check_pred_keypoints, compute_accuracies]

/-- Python `str.endswith` over character lists: the last `suffix.length`
characters of `s` equal `suffix`. -/
def endswith (s suffix : List Char) : Bool :=
  decide (suffix.length ≤ s.length) &&
    decide (List.drop (s.length - suffix.length) s = suffix)

/-- eval.py lines 409-436: detect the model format from the file suffix,
raising `ValueError('invalid model file')` on an unrecognized suffix.  The
loaded model object lives in an external inference runtime; only the
returned `model_format` string drives the rest of the script, so the
embedding returns that string. -/
def load_eval_model (model_path : String) : Except String String :=
  if endswith model_path.toList ".tflite".toList then .ok "TFLITE"
  else if endswith model_path.toList ".mnn".toList then .ok "MNN"
  else if endswith model_path.toList ".pb".toList then .ok "PB"
  else if endswith model_path.toList ".h5".toList then .ok "H5"
  else .error "invalid model file"

/-- The four backend predict functions of eval.py (lines 203-301), as
dispatch targets. -/
inductive Backend where
  | keras
  | tflite
  | pb
  | mnn
deriving DecidableEq

/-- eval.py lines 322-335: the per-sample `if/elif` dispatch of `eval_PCK`
from the `model_format` string to the backend predict function, raising
`ValueError('invalid model format')` for any other format value. -/
def dispatch_predict (model_format : String) : Except String Backend :=
  if model_format = "TFLITE" then .ok Backend.tflite
  else if model_format = "MNN" then .ok Backend.mnn
  else if model_format = "PB" then .ok Backend.pb
  else if model_format = "H5" then .ok Backend.keras
  else .error "invalid model format"

/-- Two suffixes of the same list are nested: the shorter is a drop of the
longer. -/
lemma endswith_drop (s a b : List Char) (ha : endswith s a = true)
    (hb : endswith s b = true) (hlen : b.length ≤ a.length) :
    b = List.drop (a.length - b.length) a := by
  simp only [endswith, Bool.and_eq_true, decide_eq_true_eq] at ha hb
  obtain ⟨ha1, ha2⟩ := ha
  obtain ⟨hb1, hb2⟩ := hb
  have hdd : List.drop (a.length - b.length) (List.drop (s.length - a.length) s) =
      List.drop (s.length - b.length) s := by
    rw [List.drop_drop]
    congr 1
    omega
  rw [ha2] at hdd
  rw [hdd]
  exact hb2.symm

/-- A list cannot end with `b` and also with an `a` that does not contain
`b` as its own tail. -/
lemma endswith_excl (s a b : List Char) (hlen : b.length ≤ a.length)
    (hne : b ≠ List.drop (a.length - b.length) a) (hb : endswith s b = true) :
    endswith s a = false := by
  by_contra hc
  rw [Bool.not_eq_false] at hc
  exact hne (endswith_drop s a b hc hb hlen)

/-- C4: the evaluation supports exactly four model serialization formats:
`load_eval_model` maps a path ending in '.h5' to format 'H5', '.pb' to
'PB', '.tflite' to 'TFLITE' and '.mnn' to 'MNN', and the per-sample
dispatch of `eval_PCK` maps each of those format strings to the
corresponding backend predict function, raising for any other format
value. -/
theorem load_and_dispatch_formats (model_path : String) (model_format : String) :
    (endswith model_path.toList ".h5".toList = true →
      load_eval_model model_path = .ok "H5") ∧
    (endswith model_path.toList ".pb".toList = true →
      load_eval_model model_path = .ok "PB") ∧
    (endswith model_path.toList ".tflite".toList = true →
      load_eval_model model_path = .ok "TFLITE") ∧
    (endswith model_path.toList ".mnn".toList = true →
      load_eval_model model_path = .ok "MNN") ∧
    (dispatch_predict "H5" = .ok Backend.keras ∧
     dispatch_predict "PB" = .ok Backend.pb ∧
     dispatch_predict "TFLITE" = .ok Backend.tflite ∧
     dispatch_predict "MNN" = .ok Backend.mnn) ∧
    (model_format ≠ "TFLITE" → model_format ≠ "MNN" → model_format ≠ "PB" →
      model_format ≠ "H5" →
      dispatch_predict model_format = .error "invalid model format") := by
  refine ⟨?_, ?_, ?_, ?_, ⟨rfl, rfl, rfl, rfl⟩, ?_⟩
  · intro h
    have h1 := endswith_excl model_path.toList ".tflite".toList ".h5".toList
      (by decide) (by decide) h
    have h2 := endswith_excl model_path.toList ".mnn".toList ".h5".toList
      (by decide) (by decide) h
    have h3 := endswith_excl model_path.toList ".pb".toList ".h5".toList
      (by decide) (by decide) h
    rw [load_eval_model, h1, h2, h3, h]
    simp
  · intro h
    have h1 := endswith_excl model_path.toList ".tflite".toList ".pb".toList
      (by decide) (by decide) h
    have h2 := endswith_excl model_path.toList ".mnn".toList ".pb".toList
      (by decide) (by decide) h
    rw [load_eval_model, h1, h2, h]
    simp
  · intro h
    rw [load_eval_model, h]
    simp
  · intro h
    have h1 := endswith_excl model_path.toList ".tflite".toList ".mnn".toList
      (by decide) (by decide) h
    rw [load_eval_model, h1, h]
    simp
  · intro h1 h2 h3 h4
    rw [dispatch_predict, if_neg h1, if_neg h2, if_neg h3, if_neg h4]

/-- C4 witness: a concrete '.h5' path and a concrete unsupported format
value. -/
theorem load_and_dispatch_formats_witness :
    load_eval_model "weights/hourglass.h5" = .ok "H5" ∧
    dispatch_predict "ONNX" = .error "invalid model format" :=
  ⟨(load_and_dispatch_formats "weights/hourglass.h5" "ONNX").1 (by decide),
   (load_and_dispatch_formats "weights/hourglass.h5" "ONNX").2.2.2.2.2
     (by decide) (by decide) (by decide) (by decide)⟩

/-- A 4-dimensional tensor (batch, then three more axes), embedded as an
index function. -/
def Tensor4 : Type := Nat → Nat → Nat → Nat → ℚ

/-- A 3-dimensional tensor (one heatmap: height, width, channel). -/
def Tensor3 : Type := Nat → Nat → Nat → ℚ

/-- `prediction[0]`: the heatmap of batch element 0. -/
def first_batch_element (t : Tensor4) : Tensor3 := fun i j k => t 0 i j k

def zero_tensor4 : Tensor4 := fun _ _ _ _ => 0

/-- eval.py lines 203-210: `model.predict` returns either a single array or
a list of per-stage arrays for a multi-output model; `prediction[-1]` takes
the last stage and `prediction[0]` the heatmap of batch element 0.
(`prediction[-1]` of an empty list would raise; a Keras model always has at
least one output, so the contract theorem covers the nonempty case through
the `getLastD` default.) -/
def hourglass_predict_keras (prediction : Tensor4 ⊕ List Tensor4) : Tensor3 :=
  match prediction with
  | .inl single => first_batch_element single
  | .inr outputs => first_batch_element (outputs.getLastD zero_tensor4)

/-- eval.py lines 213-236: one output array per TFLite output detail is
appended to `prediction`; the heatmap is `prediction[-1][0]`. -/
def hourglass_predict_tflite (outputs : List Tensor4) : Tensor3 :=
  first_batch_element (outputs.getLastD zero_tensor4)

/-- eval.py lines 239-256: a single hardcoded output tensor is run; the
heatmap is `prediction[0]`. -/
def hourglass_predict_pb (prediction : Tensor4) : Tensor3 :=
  first_batch_element prediction

/-- MNN tensor dimension (layout) types. -/
inductive MNNDimensionType where
  | Tensorflow
  | Caffe
  | Caffe_C4
deriving DecidableEq

/-- MNN tensor element types (only the float case is accepted). -/
inductive MNNDataType where
  | Halide_Type_Float
  | Halide_Type_Int
deriving DecidableEq

/-- The MNN session output visible to `hourglass_predict_mnn`: the copied
host data reshaped to the output shape, with its layout and element
types. -/
structure MNNOutputTensor where
  data : Tensor4
  dimensionType : MNNDimensionType
  dataType : MNNDataType

/-- `np.transpose(output_data, (0, 2, 3, 1))` (eval.py line 296): result
index `(i0, i1, i2, i3)` reads source index `(i0, i3, i1, i2)`, mapping
NCHW to NHWC. -/
def transpose_0231 (t : Tensor4) : Tensor4 := fun i0 i1 i2 i3 => t i0 i3 i1 i2

/-- eval.py lines 259-301: asserts the output element type is
`MNN.Halide_Type_Float` (line 282), transposes Caffe (channel-first)
output to channel-last (lines 295-296), raises on the `Caffe_C4` layout
(lines 297-298), and returns the heatmap `output_data[0]`. -/
def hourglass_predict_mnn (output_tensor : MNNOutputTensor) : Except String Tensor3 :=
  if output_tensor.dataType ≠ MNNDataType.Halide_Type_Float then
    .error "assert output_tensor.getDataType failed"
  else
    match output_tensor.dimensionType with
    | MNNDimensionType.Caffe =>
      .ok (first_batch_element (transpose_0231 output_tensor.data))
    | MNNDimensionType.Caffe_C4 => .error "unsupported output tensor dimension type"
    | MNNDimensionType.Tensorflow => .ok (first_batch_element output_tensor.data)

/-- C7: the four backend predict functions satisfy a uniform return
contract: each returns the single heatmap of batch element 0 in
channel-last layout, taking the last output when the model produces
multiple stage outputs (Keras list output, TFLite output details) and
transposing MNN channel-first (Caffe) output to channel-last. -/
theorem predict_return_contract :
    (∀ single : Tensor4, ∀ i j k,
      hourglass_predict_keras (.inl single) i j k = single 0 i j k) ∧
    (∀ (stages : List Tensor4) (last : Tensor4), ∀ i j k,
      hourglass_predict_keras (.inr (stages ++ [last])) i j k = last 0 i j k) ∧
    (∀ (outputs : List Tensor4) (last : Tensor4), ∀ i j k,
      hourglass_predict_tflite (outputs ++ [last]) i j k = last 0 i j k) ∧
    (∀ prediction : Tensor4, ∀ i j k,
      hourglass_predict_pb prediction i j k = prediction 0 i j k) ∧
    (∀ output_tensor : MNNOutputTensor,
      output_tensor.dataType = MNNDataType.Halide_Type_Float →
      (output_tensor.dimensionType = MNNDimensionType.Tensorflow →
        ∃ heatmap, hourglass_predict_mnn output_tensor = .ok heatmap ∧
          ∀ i j k, heatmap i j k = output_tensor.data 0 i j k) ∧
      (output_tensor.dimensionType = MNNDimensionType.Caffe →
        ∃ heatmap, hourglass_predict_mnn output_tensor = .ok heatmap ∧
          ∀ i j k, heatmap i j k = output_tensor.data 0 k i j)) := by
  refine ⟨fun single i j k => rfl, ?_, ?_, fun prediction i j k => rfl, ?_⟩
  · intro stages last i j k
    rw [hourglass_predict_keras, List.getLastD_concat]
    rfl
  · intro outputs last i j k
    rw [hourglass_predict_tflite, List.getLastD_concat]
    rfl
  · intro output_tensor hfloat
    have hnn : ¬ output_tensor.dataType ≠ MNNDataType.Halide_Type_Float := by
      rw [hfloat]
      exact fun hc => hc rfl
    constructor
    · intro hdim
      refine ⟨first_batch_element output_tensor.data, ?_, fun i j k => rfl⟩
      rw [hourglass_predict_mnn, if_neg hnn, hdim]
    · intro hdim
      refine ⟨first_batch_element (transpose_0231 output_tensor.data), ?_, fun i j k => rfl⟩
      rw [hourglass_predict_mnn, if_neg hnn, hdim]

/-- C7 witness: a concrete channel-first MNN output tensor is accepted and
transposed to channel-last. -/
theorem predict_return_contract_witness :
    ∃ heatmap,
      hourglass_predict_mnn
        ⟨fun i0 i1 i2 i3 => (i0 : ℚ) + 2 * i1 + 3 * i2 + 5 * i3,
         MNNDimensionType.Caffe, MNNDataType.Halide_Type_Float⟩ = .ok heatmap ∧
      ∀ i j k, heatmap i j k =
        (fun i0 i1 i2 i3 => (i0 : ℚ) + 2 * i1 + 3 * i2 + 5 * i3 : Tensor4) 0 k i j :=
  (predict_return_contract.2.2.2.2
    ⟨fun i0 i1 i2 i3 => (i0 : ℚ) + 2 * i1 + 3 * i2 + 5 * i3,
     MNNDimensionType.Caffe, MNNDataType.Halide_Type_Float⟩ rfl).2 rfl

/-- C3 (amended): exact characterization of every error-raising condition:
`load_eval_model` raises exactly when the model path ends with none of
'.tflite', '.mnn', '.pb', '.h5'; `hourglass_predict_mnn` raises exactly
when the output element type is not float (assertion) or the dimension
type is `Caffe_C4`; the `eval_PCK` dispatch raises exactly on a format
value other than the four supported ones; `keypoint_accuracy` raises
(assertion) exactly on a keypoint-count mismatch; the counter update
raises exactly when the result list is shorter than the class list; and
the per-class accuracy computation raises exactly when some class has a
zero succeed-plus-fail count. -/
theorem error_raising_conditions :
    (∀ model_path : String,
      load_eval_model model_path = .error "invalid model file" ↔
        (endswith model_path.toList ".tflite".toList = false ∧
         endswith model_path.toList ".mnn".toList = false ∧
         endswith model_path.toList ".pb".toList = false ∧
         endswith model_path.toList ".h5".toList = false)) ∧
    (∀ output_tensor : MNNOutputTensor,
      (∃ e, hourglass_predict_mnn output_tensor = .error e) ↔
        (output_tensor.dataType ≠ MNNDataType.Halide_Type_Float ∨
         output_tensor.dimensionType = MNNDimensionType.Caffe_C4)) ∧
    (∀ model_format : String,
      (∃ e, dispatch_predict model_format = .error e) ↔
        (model_format ≠ "TFLITE" ∧ model_format ≠ "MNN" ∧ model_format ≠ "PB" ∧
         model_format ≠ "H5")) ∧
    (∀ (pred_keypoints gt_keypoints : List (ℚ × ℚ)) (threshold normalize : ℚ),
      (∃ e, keypoint_accuracy pred_keypoints gt_keypoints threshold normalize = .error e) ↔
        pred_keypoints.length ≠ gt_keypoints.length) ∧
    (∀ (class_names : List String) (result_list : List Int) (s f : List Nat),
      (∃ e, update_counters class_names result_list s f = .error e) ↔
        result_list.length < class_names.length) ∧
    (∀ (class_names : List String) (ss fs : List Nat),
      ss.length = class_names.length → fs.length = class_names.length →
      ((∃ e, compute_accuracies class_names ss fs = .error e) ↔
        ∃ i, i < class_names.length ∧ ss.getD i 0 + fs.getD i 0 = 0)) := by
  refine ⟨?_, ?_, ?_, ?_, ?_, ?_⟩
  · intro model_path
    rw [load_eval_model]
    split_ifs with h1 h2 h3 h4 <;> simp_all
  · intro output_tensor
    obtain ⟨data, dim, dt⟩ := output_tensor
    cases dim <;> cases dt <;> simp [hourglass_predict_mnn]
  · intro model_format
    rw [dispatch_predict]
    split_ifs with h1 h2 h3 h4 <;> simp_all
  · intro pred_keypoints gt_keypoints threshold normalize
    rw [keypoint_accuracy]
    split_ifs with h <;> simp [h]
  · intro class_names result_list s f
    rw [update_counters]
    split_ifs with h
    · constructor
      · rintro ⟨e, he⟩
        exact absurd he (by simp)
      · intro hlt
        exact absurd hlt (by omega)
    · constructor
      · intro _
        omega
      · intro _
        exact ⟨"list index out of range", rfl⟩
  · intro class_names ss fs hss hfs
    constructor
    · rintro ⟨e, he⟩
      by_contra hno
      push_neg at hno
      rw [compute_accuracies_ok_spec class_names ss fs hss hfs hno] at he
      exact absurd he (by simp)
    · intro hex
      exact ⟨"float division by zero",
        compute_accuracies_zero class_names ss fs hss hfs hex⟩

/-- C3 (amended) witness: a path with an unrecognized suffix is rejected by
`load_eval_model`, and a class with zero succeed-plus-fail count makes the
accuracy computation raise. -/
theorem error_raising_conditions_witness :
    load_eval_model "model.onnx" = .error "invalid model file" ∧
    (∃ e, compute_accuracies ["head"] [0] [0] = .error e) :=
  ⟨(error_raising_conditions.1 "model.onnx").mpr (by decide),
   (error_raising_conditions.2.2.2.2.2 ["head"] [0] [0] (by decide) (by decide)).mpr
     ⟨0, by decide, by decide⟩⟩

/-- The command-line options of eval.py lines 439-480: `model_path` and
`dataset_path` are required (argparse `required=True`, no default); the
remaining options carry the argparse defaults recorded here as structure
defaults. -/
structure CLIOptions where
  model_path : String
  dataset_path : String
  classes_path : String := "configs/mpii_classes.txt"
  score_threshold : ℚ := 1 / 2
  conf_threshold : ℚ := 1 / 1000000
  model_image_size : String := "256x256"
  save_result : Bool := false
  skeleton_path : Option String := none

/-- The observable outputs of a successful run of `main` (eval.py lines
483-503 together with the side effects of `eval_PCK`, lines 356-384):
the console report (always), the PCK plot file and the per-sample
detection images (only with `save_result`). -/
structure EvalOutputs where
  console_per_class : List (String × ℚ)
  console_total : ℚ
  plot_files : List String
  detection_images : Nat

/-- eval.py `main` (lines 483-503), on the successful path: run `eval_PCK`
and report; the plot `result/PCK.jpg` is written and one detection image
is saved per evaluated sample exactly when `save_result` is set. -/
def main_run (opts : CLIOptions) (class_names : List String) (gen : Nat → EvalSample)
    (dataset_size : Nat) (normalize : ℚ) : Except String EvalOutputs :=
  match eval_PCK class_names gen dataset_size opts.score_threshold normalize with
  | .error e => .error e
  | .ok (total_accuracy, accuracy_list) =>
    .ok { console_per_class := accuracy_list,
          console_total := total_accuracy,
          plot_files := if opts.save_result then ["result/PCK.jpg"] else [],
          detection_images := if opts.save_result then dataset_size else 0 }

/-- C8: the command-line interface takes a required model path, a
class-definition file path defaulting to `configs/mpii_classes.txt`, a
required dataset path, a PCK score threshold defaulting to 0.5, a
confidence threshold defaulting to 1e-6, a model input image size
defaulting to 256x256, a save-result flag (off by default) and an optional
skeleton path; a successful run always reports the per-class and total
accuracies computed by `eval_PCK` on the console, and produces the PCK
plot and the detection images exactly when `save_result` is set. -/
theorem cli_contract (model_path dataset_path : String) (opts : CLIOptions)
    (class_names : List String) (gen : Nat → EvalSample) (dataset_size : Nat)
    (normalize : ℚ) (out : EvalOutputs)
    (hrun : main_run opts class_names gen dataset_size normalize = .ok out) :
    (({ model_path := model_path, dataset_path := dataset_path } : CLIOptions).classes_path =
        "configs/mpii_classes.txt" ∧
     ({ model_path := model_path, dataset_path := dataset_path } : CLIOptions).score_threshold =
        1 / 2 ∧
     ({ model_path := model_path, dataset_path := dataset_path } : CLIOptions).conf_threshold =
        1 / 1000000 ∧
     ({ model_path := model_path, dataset_path := dataset_path } : CLIOptions).model_image_size =
        "256x256" ∧
     ({ model_path := model_path, dataset_path := dataset_path } : CLIOptions).save_result =
        false ∧
     ({ model_path := model_path, dataset_path := dataset_path } : CLIOptions).skeleton_path =
        none) ∧
    (∃ total_accuracy accuracy_list,
      eval_PCK class_names gen dataset_size opts.score_threshold normalize =
        .ok (total_accuracy, accuracy_list) ∧
      out.console_per_class = accuracy_list ∧
      out.console_total = total_accuracy) ∧
    out.plot_files = (if opts.save_result then ["result/PCK.jpg"] else []) ∧
    out.detection_images = (if opts.save_result then dataset_size else 0) := by
  refine ⟨⟨rfl, rfl, rfl, rfl, rfl, rfl⟩, ?_⟩
  simp only [main_run] at hrun
  cases hev : eval_PCK class_names gen dataset_size opts.score_threshold normalize with
  | error e =>
    rw [hev] at hrun
    exact absurd hrun (by simp)
  | ok pair =>
    obtain ⟨total_accuracy, accuracy_list⟩ := pair
    rw [hev] at hrun
    have hout := Except.ok.inj hrun
    refine ⟨⟨total_accuracy, accuracy_list, rfl, ?_, ?_⟩, ?_, ?_⟩ <;> rw [← hout]

/-- C8 witness: a one-class, one-sample run with `save_result` set reports
accuracy 1 and produces the plot and one detection image. -/
theorem cli_contract_witness :
    (({ model_path := "m.h5", dataset_path := "d" } : CLIOptions).classes_path =
        "configs/mpii_classes.txt" ∧
     ({ model_path := "m.h5", dataset_path := "d" } : CLIOptions).score_threshold = 1 / 2 ∧
     ({ model_path := "m.h5", dataset_path := "d" } : CLIOptions).conf_threshold =
        1 / 1000000 ∧
     ({ model_path := "m.h5", dataset_path := "d" } : CLIOptions).model_image_size =
        "256x256" ∧
     ({ model_path := "m.h5", dataset_path := "d" } : CLIOptions).save_result = false ∧
     ({ model_path := "m.h5", dataset_path := "d" } : CLIOptions).skeleton_path = none) ∧
    (∃ total_accuracy accuracy_list,
      eval_PCK ["head"] (fun _ => ⟨[(3, 3)], [(3, 3)]⟩) 1
          ({ model_path := "m.h5", dataset_path := "d", save_result := true } :
            CLIOptions).score_threshold 1 =
        .ok (total_accuracy, accuracy_list) ∧
      (⟨[("head", 1)], 1, ["result/PCK.jpg"], 1⟩ : EvalOutputs).console_per_class =
        accuracy_list ∧
      (⟨[("head", 1)], 1, ["result/PCK.jpg"], 1⟩ : EvalOutputs).console_total =
        total_accuracy) ∧
    (⟨[("head", 1)], 1, ["result/PCK.jpg"], 1⟩ : EvalOutputs).plot_files =
      (if ({ model_path := "m.h5", dataset_path := "d", save_result := true } :
          CLIOptions).save_result then ["result/PCK.jpg"] else []) ∧
    (⟨[("head", 1)], 1, ["result/PCK.jpg"], 1⟩ : EvalOutputs).detection_images =
      (if ({ model_path := "m.h5", dataset_path := "d", save_result := true } :
          CLIOptions).save_result then 1 else 0) :=
  cli_contract "m.h5" "d"
    { model_path := "m.h5", dataset_path := "d", save_result := true }
    ["head"] (fun _ => ⟨[(3, 3)], [(3, 3)]⟩) 1 1
    ⟨[("head", 1)], 1, ["result/PCK.jpg"], 1⟩
    (by norm_num [main_run, eval_PCK, eval_loop, eval_step, keypoint_accuracy,
      update_counters, check_pred_keypoints, dist_lt, kp_dist_sq, compute_accuracies])
